import Mathlib

/-!
Shallow embedding of `tools/upgrade/commands/targets_to_configuration.py`
(`TargetsToConfiguration`): the directory-coverage resolution and conversion
orchestration algorithm.

Modelling conventions:
* External collaborators (`find_targets`, `get_filesystem().list`,
  `find_files`, `find_directories`, the type checker via
  `Configuration.get_errors`, the repository) are modelled as pure functions
  packaged in an `Env` record.  They are assumed deterministic: the same call
  returns the same answer throughout a run.
* Side effects are recorded as an `Event` trace, in the order the Python code
  performs them.
* The only mutable instance field the algorithm writes is `self._glob`
  (set to `None` on glob-threshold fallback); it is threaded explicitly as an
  `Option Int` value.  `self._fixme_threshold` is immutable and passed as a
  parameter.  Python integer truthiness (`if self._glob:`) is modelled by
  `truthy`.
* Error lists from the checker are abstracted to `(path, error count)` pairs:
  the algorithm only ever takes `len(errors)` and forwards the whole list to
  a suppression collaborator.
* Python `str` operations (`startswith`, `split`, `replace`, `sorted` with a
  `(len, list)` key) are re-implemented over `String.data` character lists so
  that every definition kernel-evaluates.
* `Path(d)` round-trips are modelled as the identity on the path string.
-/

namespace TargetsToConfiguration

/-! ### Python string primitives -/

/-- Python `s.startswith(pre)`: `pre` is a string prefix of `s`. -/
def pyStartsWith (s pre : String) : Bool :=
  pre.data.isPrefixOf s.data

/-- Character-list splitter for Python `s.split(sep)` with a one-character
separator; `"".split(sep) == [""]`. -/
def splitCharAux (c : Char) : List Char → List (List Char)
  | [] => [[]]
  | x :: xs =>
    match splitCharAux c xs with
    | [] => [[]]
    | w :: ws => if x = c then [] :: w :: ws else (x :: w) :: ws

/-- Python `s.split("/")`. -/
def pySplitSlash (s : String) : List String :=
  (splitCharAux '/' s.data).map (fun l => String.mk l)

/-- Python `"/".join(l)`. -/
def pyJoinSlash : List String → String
  | [] => ""
  | [s] => s
  | s :: rest => s ++ "/" ++ pyJoinSlash rest

/-- Fuelled worker for Python `s.replace(pat, repl)` (leftmost, non-overlapping,
every occurrence).  Each step consumes at least one character of the input, so
fuel `s.length` is always enough; the fuel only serves the termination checker. -/
def replaceFuel (pat repl : List Char) : Nat → List Char → List Char
  | 0, s => s
  | _ + 1, [] => []
  | fuel + 1, x :: xs =>
    if pat.length ≠ 0 ∧ pat.isPrefixOf (x :: xs) then
      repl ++ replaceFuel pat repl fuel ((x :: xs).drop pat.length)
    else
      x :: replaceFuel pat repl fuel xs

/-- Python `s.replace(pat, repl)` (for nonempty `pat`, which is the only use). -/
def pyReplace (s pat repl : String) : String :=
  String.mk (replaceFuel pat.data repl.data s.data.length s.data)

/-- Python `<` on strings: lexicographic comparison of code points. -/
def charListLt : List Char → List Char → Bool
  | [], [] => false
  | [], _ :: _ => true
  | _ :: _, [] => false
  | a :: as, b :: bs => if a = b then charListLt as bs else decide (a < b)

/-- Python `<` on two strings. -/
def strLt (a b : String) : Bool := charListLt a.data b.data

/-- Python `<` on two lists of strings (elementwise lexicographic). -/
def listStrLt : List String → List String → Bool
  | [], [] => false
  | [], _ :: _ => true
  | _ :: _, [] => false
  | a :: as, b :: bs => if a = b then listStrLt as bs else strLt a b

/-! ### The sort key used by `_gather_directories`

`sorted(..., key=lambda directory: (len(directory), directory))` over the
slash-split directories: compare by length first, then list-lexicographically.
Python's `sorted` is stable; a stable insertion sort models it. -/

/-- Strict comparison of the `(len(directory), directory)` sort keys. -/
def keyLt (a b : List String) : Bool :=
  if a.length < b.length then true
  else if b.length < a.length then false
  else listStrLt a b

/-- Non-strict key comparison (`a` does not come strictly after `b`). -/
def keyLe (a b : List String) : Bool := !(keyLt b a)

/-- Stable sorted-insert for `sortByKey`. -/
def insertKey (x : List String) : List (List String) → List (List String)
  | [] => [x]
  | y :: ys => if keyLe x y then x :: y :: ys else y :: insertKey x ys

/-- Stable sort by `(len(directory), directory)`, modelling Python `sorted`. -/
def sortByKey : List (List String) → List (List String)
  | [] => []
  | x :: xs => insertKey x (sortByKey xs)

/-- Boolean "consecutive elements are `keyLe`-ordered" check. -/
def pairwiseKeyLe : List (List String) → Bool
  | [] => true
  | [_] => true
  | x :: y :: rest => keyLe x y && pairwiseKeyLe (y :: rest)

/-! ### Threshold policy -/

/-- Python truthiness of an optional integer (`if self._glob:`,
`if error_threshold:`): `None` and `0` are falsy. -/
def truthy : Option Int → Bool
  | none => false
  | some n => n != 0

/-- `if threshold and error_count > threshold:` — the threshold is truthy and
the file's error count strictly exceeds it. -/
def exceeds (threshold : Option Int) (count : Nat) : Bool :=
  match threshold with
  | none => false
  | some t => t != 0 && decide ((count : Int) > t)

/-- Outcome of the per-file threshold checks in `convert_directory`'s error
loop. -/
inductive FileAction where
  | fallback
  | fileIgnore
  | inline
deriving DecidableEq

/-- Per-file classification: the glob-threshold check runs first, then the
fixme-threshold check, else inline suppression. -/
def fileAction (globThreshold fixmeThreshold : Option Int) (count : Nat) :
    FileAction :=
  if exceeds globThreshold count then FileAction.fallback
  else if exceeds fixmeThreshold count then FileAction.fileIgnore
  else FileAction.inline

/-! ### Environment: external collaborators and immutable run parameters -/

/-- External collaborators and the immutable constructor arguments of
`TargetsToConfiguration`, modelled as pure, deterministic functions.
`get_errors` abstracts `Configuration.get_errors()` on the configuration just
written for a directory; its `Bool` argument records whether the conversion
used glob mode (which determines the targets the checker sees).  Error lists
are abstracted to `(file path, error count)` pairs. -/
structure Env where
  find_targets : String → List (String × List String)
  fs_list : String → List String
  config_exists : String → Bool
  existing_config_targets : String → List String
  get_errors : String → Bool → List (String × Nat)
  find_files_configs : String → List String
  find_directories : String → List String
  format_result : Bool
  lint : Bool
  no_commit : Bool
  submit : Bool
  subdirectory : Option String
  cwd : String
  migration_summary : String

/-- Trace of the side effects `convert_directory` / `run` perform, in program
order.  `typeCheck d b` records invoking the checker for directory `d` with
glob mode `b`; `suppressLintErrors` stands for the single
`_suppress_errors(get_errors(should_clean=False))` call of the lint pass. -/
inductive Event where
  | warnNoTargets (dir : String)
  | mergeConfig (dir : String) (targets : List String)
  | writeNewConfig (dir : String) (targets : List String)
  | addPaths (paths : List String)
  | stripTypingFields (files : List String)
  | removeNonPyreIgnores (dir : String)
  | typeCheck (dir : String) (globMode : Bool)
  | revertAll (removeUntracked : Bool)
  | addLocalMode (path : String)
  | suppressErrors (path : String) (count : Nat)
  | formatRun
  | suppressLintErrors (dir : String)
  | submitChanges (commit : Bool) (submit : Bool) (title summary : String)
deriving DecidableEq

/-! ### Mode selection (`convert_directory`, explicit branch loop) -/

/-- The explicit-mode accumulation loop: for each `(path, target_names)` pair
of `all_targets`, append `path/TARGETS` to the build files and one
`//path:name` string per name to the new targets.  Returns
`(new_targets, targets_files)`. -/
def explicitLoop : List (String × List String) → List String × List String
  | [] => ([], [])
  | (path, targetNames) :: rest =>
    match explicitLoop rest with
    | (targets, files) =>
      (targetNames.map (fun name => "//" ++ path ++ ":" ++ name) ++ targets,
       (path ++ "/TARGETS") :: files)

/-- `ModeSelect`: glob mode writes the single wildcard target and strips every
`TARGETS` file found under the directory by filesystem glob
(`get_filesystem().list(directory, ["**/TARGETS"])`, paths joined onto the
directory); explicit mode uses `explicitLoop`.  Returns
`(new_targets, targets_files)`. -/
def selectTargets (env : Env) (glob : Option Int) (directory : String) :
    List String × List String :=
  if truthy glob then
    (["//" ++ directory ++ "/..."],
     (env.fs_list directory).map (fun path => directory ++ "/" ++ path))
  else
    explicitLoop (env.find_targets directory)

/-! ### Configuration store -/

/-- Worker for `deduplicateTargets`: keep each target the first time it is
seen, drop later duplicates. -/
def dedupGo : List String → List String → List String
  | [], _ => []
  | t :: rest, seen =>
    if seen.contains t then dedupGo rest seen
    else t :: dedupGo rest (t :: seen)

/-- Modelled from the spec: `Configuration.deduplicate_targets` is not under
`src/`; the spec describes the target list as "ordered, deduplicated"
(invariant: no duplicate target string) and its merge-correctness property
requires an order-preserving, first-occurrence-keeping deduplication. -/
def deduplicateTargets (l : List String) : List String :=
  dedupGo l []

/-- Modelled from the spec: `Configuration.add_targets` is not under `src/`;
the spec's merge step "merge the new targets into its target list" appends the
new targets to the existing ones. -/
def addTargets (existing newTargets : List String) : List String :=
  existing ++ newTargets

/-- `WriteConfig`: if `<directory>/.pyre_configuration.local` exists, load it,
merge and deduplicate the targets and write back; otherwise write a fresh
document with just the new targets and register the new file with version
control. -/
def writeConfigEvents (env : Env) (directory : String)
    (newTargets : List String) : List Event :=
  let configurationPath := directory ++ "/.pyre_configuration.local"
  if env.config_exists directory then
    [Event.mergeConfig directory
      (deduplicateTargets (addTargets (env.existing_config_targets directory) newTargets))]
  else
    [Event.writeNewConfig directory newTargets,
     Event.addPaths [configurationPath]]

/-! ### The per-file threshold loop -/

/-- The `for path, errors in all_errors` loop of `convert_directory`.
`innerRun` is the event trace of the recursive `self.run()` call that the
fallback branch performs after `self._glob = None`; the returned `Bool`
records whether the fallback fired (in which case the loop, and the rest of
`convert_directory`, is cut short). -/
def thresholdLoop (fixme glob : Option Int) (innerRun : List Event) :
    List (String × Nat) → List Event × Bool
  | [] => ([], false)
  | (path, count) :: rest =>
    match fileAction glob fixme count with
    | FileAction.fallback => (Event.revertAll true :: innerRun, true)
    | FileAction.fileIgnore =>
      let r := thresholdLoop fixme glob innerRun rest
      (Event.addLocalMode path :: r.1, r.2)
    | FileAction.inline =>
      let r := thresholdLoop fixme glob innerRun rest
      (Event.suppressErrors path count :: r.1, r.2)

/-! ### `convert_directory` -/

/-- Result of one `convert_directory` call: its event trace, the value of
`self._glob` when it returns, and (instrumentation) whether the
glob-threshold fallback fired during it. -/
structure ConvertResult where
  events : List Event
  glob : Option Int
  fellBack : Bool
deriving DecidableEq

/-- The `if self._lint:` epilogue of `convert_directory` (skipped when the
fallback fired). -/
def lintEvents (env : Env) (directory : String) : List Event :=
  if env.lint then
    if env.format_result then
      [Event.formatRun, Event.suppressLintErrors directory]
    else [Event.formatRun]
  else []

/-- `convert_directory(directory)`.  `fixme` is `self._fixme_threshold`,
`glob` is the current `self._glob`; `innerRun` is the trace of the
`self.run()` the fallback branch performs after setting `self._glob = None`
(it is consulted only on fallback, which requires `truthy glob`). -/
def convert_directory (env : Env) (fixme glob : Option Int)
    (innerRun : List Event) (directory : String) : ConvertResult :=
  let allTargets := env.find_targets directory
  if allTargets.isEmpty then
    ⟨[Event.warnNoTargets directory], glob, false⟩
  else
    let selected := selectTargets env glob directory
    let configEvents := writeConfigEvents env directory selected.1
    let allErrors := env.get_errors directory (truthy glob)
    let looped := thresholdLoop fixme glob innerRun allErrors
    let events := configEvents ++
      [Event.stripTypingFields selected.2,
       Event.removeNonPyreIgnores directory,
       Event.typeCheck directory (truthy glob)] ++ looped.1 ++
      (if looped.2 then [] else lintEvents env directory)
    ⟨events, if looped.2 then none else glob, looped.2⟩

/-! ### `_gather_directories` (directory coverage resolver) -/

/-- One enumeration step of the gap-filling walk: list the filesystem
subdirectories of `prefixPath` and keep each one `sub` such that no known
configuration directory string starts with `sub`
(`all(not configuration_directory.startswith(str(subdirectory)) ...)`). -/
def stepAdditions (env : Env) (known : List String) (prefixPath : String) :
    List String :=
  (env.find_directories prefixPath).filter
    (fun sub => known.all (fun c => !(pyStartsWith c sub)))

/-- The gap-filling loop of `_gather_directories`: iterate over the sorted
split directories with `current_depth` starting at 1; a directory with
`len(directory) <= current_depth` is skipped by `continue` (which also skips
the `current_depth += 1`). -/
def gapLoop (env : Env) (known : List String) :
    List (List String) → Nat → List String
  | [], _ => []
  | d :: rest, depth =>
    if d.length ≤ depth then gapLoop env known rest depth
    else
      stepAdditions env known (pyJoinSlash (d.take depth)) ++
        gapLoop env known rest (depth + 1)

/-- The known configuration directories: the files found by
`find_files(subdirectory, ".pyre_configuration.local")` with
`"/.pyre_configuration.local"` replaced away, in discovery order. -/
def knownDirectories (env : Env) (subdirectory : String) : List String :=
  (env.find_files_configs subdirectory).map
    (fun c => pyReplace c "/.pyre_configuration.local" "")

/-- The `(len, lexical)`-sorted split copies of the known directories that
drive the gap-filling loop. -/
def sortedSplitDirectories (env : Env) (subdirectory : String) :
    List (List String) :=
  sortByKey ((knownDirectories env subdirectory).map pySplitSlash)

/-- The missing-coverage directories accumulated by the gap-filling walk. -/
def missingDirectories (env : Env) (subdirectory : String) : List String :=
  gapLoop env (knownDirectories env subdirectory)
    (sortedSplitDirectories env subdirectory) 1

/-- `_gather_directories(subdirectory)`: locate existing local configurations;
with none, the result is just `[subdirectory]`; otherwise extend the known
directories with the gap-filling walk's missing directories. -/
def gather_directories (env : Env) (subdirectory : String) : List String :=
  let configurationDirectories := knownDirectories env subdirectory
  if configurationDirectories.length = 0 then [subdirectory]
  else
    configurationDirectories ++
      gapLoop env configurationDirectories
        (sortByKey (configurationDirectories.map pySplitSlash)) 1

/-! ### The top-level run -/

/-- Result of the directory loop in `run`: the event trace, the final
`self._glob`, the final `converted` list, and (instrumentation) the list of
directories actually passed to `convert_directory`, in call order. -/
structure LoopResult where
  events : List Event
  glob : Option Int
  converted : List String
  processed : List String
deriving DecidableEq

/-- The `for directory in configuration_directories` loop of `run`: a
directory is converted unless its path string starts with some previously
converted directory's path string, and it is appended to `converted` after
`convert_directory` returns (even when that conversion found no targets, and
even when it fell back and re-ran everything). -/
def runLoop (env : Env) (fixme : Option Int) (innerRun : List Event) :
    List String → Option Int → List String → LoopResult
  | [], glob, converted => ⟨[], glob, converted, []⟩
  | d :: rest, glob, converted =>
    if converted.all (fun c => !(pyStartsWith d c)) then
      let cr := convert_directory env fixme glob innerRun d
      let r := runLoop env fixme innerRun rest cr.glob (converted ++ [d])
      ⟨cr.events ++ r.events, r.glob, r.converted, d :: r.processed⟩
    else
      runLoop env fixme innerRun rest glob converted

/-- `Path(subdirectory) if subdirectory else Path.cwd()` (an absent or empty
string argument falls back to the current directory). -/
def resolveSubdirectory (env : Env) : String :=
  match env.subdirectory with
  | some s => if s = "" then env.cwd else s
  | none => env.cwd

/-- The summary line appended when `self._glob` is still truthy after the
directory loop. -/
def globSummaryNote (g : Int) : String :=
  "\n\nConfiguration target automatically expanded to include "
    ++ "all subtargets, expanding type coverage while introducing "
    ++ "no more than " ++ toString g ++ " fixmes per file."

/-- `run()` with the trace of the recursive fallback `self.run()` supplied as
`innerRun`: gather directories, loop, then submit the changeset.  Returns the
event trace and the final `self._glob`. -/
def run_aux (env : Env) (fixme glob : Option Int) (innerRun : List Event) :
    List Event × Option Int :=
  let subdirectory := resolveSubdirectory env
  let dirs := gather_directories env subdirectory
  let r := runLoop env fixme innerRun dirs glob []
  let summary :=
    match r.glob with
    | some g =>
      if g != 0 then env.migration_summary ++ globSummaryNote g
      else env.migration_summary
    | none => env.migration_summary
  let title :=
    "Convert type check targets in " ++ subdirectory ++ " to use configuration"
  (r.events ++ [Event.submitChanges (!env.no_commit) env.submit title summary],
   r.glob)

/-- The trace of `run()` executed with `self._glob = None` — the run the
fallback branch performs.  With `glob = none` the fallback can never fire
(`exceeds none count = false`), so the `innerRun` argument is never consulted
and `[]` is a sound placeholder. -/
def runNoneEvents (env : Env) (fixme : Option Int) : List Event :=
  (run_aux env fixme none []).1

/-- The full `run()` trace of one invocation with parameters `fixme`
(`--fixme-threshold`) and `glob` (`--glob`): ties the recursive fallback knot
by supplying the glob-disabled run as `innerRun`. -/
def run (env : Env) (fixme glob : Option Int) : List Event :=
  (run_aux env fixme glob (runNoneEvents env fixme)).1

/-! ### Event predicates and concrete environments -/

/-- Does this event record a type-check invocation made in glob mode? -/
def isGlobTypeCheck : Event → Bool
  | Event.typeCheck _ b => b
  | _ => false

/-- Does this event attach a file-level ignore (`add_local_mode`)? -/
def isAddLocalModeEvent : Event → Bool
  | Event.addLocalMode _ => true
  | _ => false

/-- Concrete environment: two directories `a` and `b`, each with one target
and an existing local configuration; in glob mode directory `a` reports one
file with 2 errors, otherwise the checker reports nothing. -/
def env1 : Env :=
  ⟨fun d =>
     if d == "a" then [("a", ["x"])]
     else if d == "b" then [("b", ["y"])] else [],
   fun _ => ["TARGETS"],
   fun d => d == "a" || d == "b",
   fun _ => [],
   fun d g => if d == "a" && g then [("a/f.py", 2)] else [],
   fun _ => ["a/.pyre_configuration.local", "b/.pyre_configuration.local"],
   fun _ => [],
   false, false, false, false,
   some "root", "cwd", "SUMMARY"⟩

/-- Concrete environment whose configuration search returns a depth-2
configuration directory before a depth-1 one. -/
def env4 : Env :=
  ⟨fun d =>
     if d == "a" then [("a", ["x"])]
     else if d == "b/c" then [("b/c", ["y"])] else [],
   fun _ => ["TARGETS"],
   fun d => d == "a" || d == "b/c",
   fun _ => [],
   fun _ _ => [],
   fun _ => ["b/c/.pyre_configuration.local", "a/.pyre_configuration.local"],
   fun _ => [],
   false, false, false, false,
   some "root", "cwd", "SUMMARY"⟩

/-- Concrete environment whose directory enumeration returns `foo`. -/
def env5 : Env :=
  ⟨fun _ => [], fun _ => [], fun _ => false, fun _ => [], fun _ _ => [],
   fun _ => [], fun _ => ["foo"], false, false, false, false,
   none, "cwd", "SUMMARY"⟩

/-- Concrete environment: a root with no pre-existing configuration and
targets discovered at `a` and `b/c`. -/
def envW : Env :=
  ⟨fun d => if d == "root" then [("a", ["x"]), ("b/c", ["y"])] else [],
   fun _ => ["a/TARGETS", "b/c/TARGETS"],
   fun _ => false,
   fun _ => [],
   fun _ _ => [],
   fun _ => [],
   fun _ => [],
   false, false, false, false,
   some "root", "cwd", "SUMMARY"⟩

/-! ### Supporting lemmas: truthiness and the per-file policy -/

theorem exceeds_not_truthy {t : Option Int} (h : truthy t = false) (c : Nat) :
    exceeds t c = false := by
  cases t with
  | none => rfl
  | some n =>
    simp only [truthy] at h
    simp [exceeds, h]

theorem exceeds_some_zero (c : Nat) : exceeds (some 0) c = false := by
  simp [exceeds]

theorem exceeds_none_eq (c : Nat) : exceeds none c = false := rfl

theorem fileAction_not_truthy {g : Option Int} (f : Option Int) (c : Nat)
    (h : truthy g = false) : fileAction g f c = fileAction none f c := by
  unfold fileAction
  rw [exceeds_not_truthy h, exceeds_none_eq]

theorem fileAction_none_ne_fallback (f : Option Int) (c : Nat) :
    fileAction none f c ≠ FileAction.fallback := by
  unfold fileAction
  rw [exceeds_none_eq]
  simp only [Bool.false_eq_true, if_false]
  split <;> simp

theorem fileAction_fixme_zero (g : Option Int) (c : Nat) :
    fileAction g (some 0) c = fileAction g none c := by
  unfold fileAction
  rw [exceeds_some_zero, exceeds_none_eq]

theorem thresholdLoop_not_truthy {g : Option Int} (f : Option Int)
    (inner inner' : List Event) (errs : List (String × Nat))
    (h : truthy g = false) :
    thresholdLoop f g inner errs = ((thresholdLoop f none inner' errs).1, false) := by
  induction errs with
  | nil => rfl
  | cons pc rest ih =>
    obtain ⟨path, count⟩ := pc
    rw [thresholdLoop, thresholdLoop, fileAction_not_truthy f count h]
    cases hfa : fileAction none f count with
    | fallback => exact absurd hfa (fileAction_none_ne_fallback f count)
    | fileIgnore => simp [ih]
    | inline => simp [ih]

theorem thresholdLoop_fixme_zero (g : Option Int) (inner : List Event)
    (errs : List (String × Nat)) :
    thresholdLoop (some 0) g inner errs = thresholdLoop none g inner errs := by
  induction errs with
  | nil => rfl
  | cons pc rest ih =>
    obtain ⟨path, count⟩ := pc
    rw [thresholdLoop, thresholdLoop, fileAction_fixme_zero g count]
    cases fileAction g none count <;> simp [ih]

theorem truthy_none_eq : truthy none = false := rfl

theorem selectTargets_not_truthy (env : Env) (d : String) {g : Option Int}
    (h : truthy g = false) : selectTargets env g d = selectTargets env none d := by
  unfold selectTargets
  rw [h, truthy_none_eq]

/-- With a falsy glob value the conversion of a directory cannot fall back:
it performs exactly the events of the glob-disabled conversion (for any inner
run), and leaves `self._glob` unchanged. -/
theorem convert_not_truthy (env : Env) (f : Option Int) {g : Option Int}
    (inner inner' : List Event) (d : String) (h : truthy g = false) :
    convert_directory env f g inner d =
      ⟨(convert_directory env f none inner' d).events, g, false⟩ := by
  have hsnd := congrArg Prod.snd
    (thresholdLoop_not_truthy f inner' inner' (env.get_errors d false)
      (rfl : truthy (none : Option Int) = false))
  have hloop := thresholdLoop_not_truthy f inner inner' (env.get_errors d false) h
  simp only [convert_directory]
  cases he : (env.find_targets d).isEmpty with
  | true => simp [he]
  | false =>
    rw [selectTargets_not_truthy env d h]
    simp [he, h, hloop, hsnd, truthy_none_eq]

theorem convert_fixme_zero (env : Env) (g : Option Int) (inner : List Event)
    (d : String) :
    convert_directory env (some 0) g inner d =
      convert_directory env none g inner d := by
  simp only [convert_directory, thresholdLoop_fixme_zero]

/-- With a falsy glob the directory loop performs the glob-disabled events
(for any inner run) and leaves the glob state unchanged. -/
theorem runLoop_not_truthy (env : Env) (f : Option Int)
    (inner inner' : List Event) (dirs : List String) {g : Option Int}
    (conv : List String) (h : truthy g = false) :
    runLoop env f inner dirs g conv =
      ⟨(runLoop env f inner' dirs none conv).events, g,
       (runLoop env f inner' dirs none conv).converted,
       (runLoop env f inner' dirs none conv).processed⟩ := by
  induction dirs generalizing conv with
  | nil => rfl
  | cons d rest ih =>
    have hg : (convert_directory env f none inner' d).glob = none := by
      rw [convert_not_truthy env f inner' inner' d truthy_none_eq]
    simp only [runLoop]
    cases hf : conv.all (fun c => !(pyStartsWith d c)) with
    | false => simpa [hf] using ih conv
    | true =>
      rw [convert_not_truthy env f inner inner' d h, hg]
      simp only [Bool.true_eq_false, if_true, reduceIte]
      rw [ih (conv ++ [d])]

theorem runLoop_glob_not_truthy (env : Env) (f : Option Int)
    (inner : List Event) (dirs : List String) {g : Option Int}
    (conv : List String) (h : truthy g = false) :
    (runLoop env f inner dirs g conv).glob = g := by
  rw [runLoop_not_truthy env f inner inner dirs conv h]

theorem run_aux_not_truthy (env : Env) (f : Option Int) {g : Option Int}
    (inner inner' : List Event) (h : truthy g = false) :
    (run_aux env f g inner).1 = (run_aux env f none inner').1 := by
  have hg' : (runLoop env f inner'
      (gather_directories env (resolveSubdirectory env)) none []).glob = none :=
    runLoop_glob_not_truthy env f inner'
      (gather_directories env (resolveSubdirectory env)) [] truthy_none_eq
  simp only [run_aux]
  rw [runLoop_not_truthy env f inner inner'
    (gather_directories env (resolveSubdirectory env)) [] h]
  rw [hg']
  cases g with
  | none => rfl
  | some n =>
    simp only [truthy] at h
    simp [h]

theorem runLoop_fixme_zero (env : Env) (inner : List Event)
    (dirs : List String) (g : Option Int) (conv : List String) :
    runLoop env (some 0) inner dirs g conv =
      runLoop env none inner dirs g conv := by
  induction dirs generalizing g conv with
  | nil => rfl
  | cons d rest ih =>
    simp only [runLoop, convert_fixme_zero, ih]

theorem run_aux_fixme_zero (env : Env) (g : Option Int) (inner : List Event) :
    run_aux env (some 0) g inner = run_aux env none g inner := by
  simp only [run_aux, runLoop_fixme_zero]

/-! ### Counting fallback events -/

theorem writeConfigEvents_count_revert (env : Env) (d : String)
    (nt : List String) :
    (writeConfigEvents env d nt).count (Event.revertAll true) = 0 := by
  unfold writeConfigEvents
  split <;> simp

theorem lintEvents_count_revert (env : Env) (d : String) :
    (lintEvents env d).count (Event.revertAll true) = 0 := by
  unfold lintEvents
  cases hl : env.lint <;> cases hf : env.format_result <;> simp

theorem thresholdLoop_count_revert (f g : Option Int) (inner : List Event)
    (errs : List (String × Nat)) :
    (thresholdLoop f g inner errs).1.count (Event.revertAll true) =
      (if (thresholdLoop f g inner errs).2 then
        1 + inner.count (Event.revertAll true)
      else 0) := by
  induction errs with
  | nil => rfl
  | cons pc rest ih =>
    obtain ⟨path, count⟩ := pc
    rw [thresholdLoop]
    cases fileAction g f count <;> (simp [List.count_cons, ih]; try omega)

theorem convert_count_revert (env : Env) (f g : Option Int)
    (inner : List Event) (d : String) :
    (convert_directory env f g inner d).events.count (Event.revertAll true) =
      (if (convert_directory env f g inner d).fellBack then
        1 + inner.count (Event.revertAll true)
      else 0) := by
  simp only [convert_directory]
  cases he : (env.find_targets d).isEmpty with
  | true => simp [he]
  | false =>
    simp only [he, Bool.false_eq_true, if_false]
    cases hfb : (thresholdLoop f g inner (env.get_errors d (truthy g))).2 with
    | true =>
      simp [List.count_append, writeConfigEvents_count_revert,
        thresholdLoop_count_revert, lintEvents_count_revert, hfb]
    | false =>
      simp [List.count_append, writeConfigEvents_count_revert,
        thresholdLoop_count_revert, lintEvents_count_revert, hfb]

theorem convert_glob_of_fellBack (env : Env) (f g : Option Int)
    (inner : List Event) (d : String)
    (h : (convert_directory env f g inner d).fellBack = true) :
    (convert_directory env f g inner d).glob = none := by
  simp only [convert_directory] at h ⊢
  cases he : (env.find_targets d).isEmpty with
  | true => simp [he] at h
  | false =>
    simp only [he, Bool.false_eq_true, if_false] at h ⊢
    simp [h]

theorem runLoop_count_revert_zero (env : Env) (f : Option Int)
    (inner : List Event) (dirs : List String) {g : Option Int}
    (conv : List String) (h : truthy g = false) :
    (runLoop env f inner dirs g conv).events.count (Event.revertAll true) = 0 := by
  induction dirs generalizing conv with
  | nil => rfl
  | cons d rest ih =>
    have hfb : (convert_directory env f none inner d).fellBack = false := by
      rw [convert_not_truthy env f inner inner d truthy_none_eq]
    have hc := convert_count_revert env f none inner d
    rw [hfb] at hc
    simp only [Bool.false_eq_true, if_false] at hc
    simp only [runLoop]
    cases hf : conv.all (fun c => !(pyStartsWith d c)) with
    | false => simpa [hf] using ih conv
    | true =>
      rw [convert_not_truthy env f inner inner d h]
      simp [List.count_append, hc, ih (conv ++ [d])]

theorem runLoop_count_revert_le_one (env : Env) (f : Option Int)
    (inner : List Event) (dirs : List String)
    (hinner : inner.count (Event.revertAll true) = 0) :
    ∀ (g : Option Int) (conv : List String),
      (runLoop env f inner dirs g conv).events.count (Event.revertAll true) ≤ 1 := by
  induction dirs with
  | nil => intro g conv; simp [runLoop]
  | cons d rest ih =>
    intro g conv
    simp only [runLoop]
    cases hf : conv.all (fun c => !(pyStartsWith d c)) with
    | false => simpa [hf] using ih g conv
    | true =>
      simp only [Bool.true_eq_false, if_true, reduceIte, List.count_append]
      have hc := convert_count_revert env f g inner d
      cases hfb : (convert_directory env f g inner d).fellBack with
      | true =>
        rw [hfb] at hc
        simp only [if_true, reduceIte, hinner] at hc
        have hg := convert_glob_of_fellBack env f g inner d hfb
        rw [hg]
        have hr := runLoop_count_revert_zero env f inner rest
          (conv ++ [d]) truthy_none_eq
        omega
      | false =>
        rw [hfb] at hc
        simp only [Bool.false_eq_true, if_false] at hc
        have hr := ih (convert_directory env f g inner d).glob (conv ++ [d])
        omega

theorem runNoneEvents_count_revert (env : Env) (f : Option Int) :
    (runNoneEvents env f).count (Event.revertAll true) = 0 := by
  unfold runNoneEvents run_aux
  simp [List.count_append,
    runLoop_count_revert_zero env f []
      (gather_directories env (resolveSubdirectory env)) [] truthy_none_eq]

/-! ### Shape of the events of glob-disabled runs -/

theorem fileAction_fixme_none_ne_fileIgnore (g : Option Int) (c : Nat) :
    fileAction g none c ≠ FileAction.fileIgnore := by
  unfold fileAction
  rw [exceeds_none_eq]
  split <;> simp

theorem writeConfigEvents_all_notGlobTC (env : Env) (d : String)
    (nt : List String) :
    (writeConfigEvents env d nt).all (fun e => !(isGlobTypeCheck e)) = true := by
  unfold writeConfigEvents
  split <;> simp [isGlobTypeCheck]

theorem lintEvents_all_notGlobTC (env : Env) (d : String) :
    (lintEvents env d).all (fun e => !(isGlobTypeCheck e)) = true := by
  unfold lintEvents
  cases env.lint <;> cases env.format_result <;> simp [isGlobTypeCheck]

theorem thresholdLoop_all_not_truthy (p : Event → Bool) (f : Option Int)
    {g : Option Int} (inner : List Event) (errs : List (String × Nat))
    (h : truthy g = false)
    (hALM : ∀ x, p (Event.addLocalMode x) = true)
    (hSup : ∀ x c, p (Event.suppressErrors x c) = true) :
    (thresholdLoop f g inner errs).1.all p = true := by
  induction errs with
  | nil => rfl
  | cons pc rest ih =>
    obtain ⟨path, count⟩ := pc
    rw [thresholdLoop, fileAction_not_truthy f count h]
    cases hfa : fileAction none f count with
    | fallback => exact absurd hfa (fileAction_none_ne_fallback f count)
    | fileIgnore => simp [hALM, ih]
    | inline => simp [hSup, ih]

theorem convert_all_notGlobTC (env : Env) (f : Option Int) {g : Option Int}
    (inner : List Event) (d : String) (h : truthy g = false) :
    (convert_directory env f g inner d).events.all
      (fun e => !(isGlobTypeCheck e)) = true := by
  simp only [convert_directory]
  cases he : (env.find_targets d).isEmpty with
  | true => simp [he, isGlobTypeCheck]
  | false =>
    simp only [he, Bool.false_eq_true, if_false]
    rw [h]
    have hloop := thresholdLoop_all_not_truthy (fun e => !(isGlobTypeCheck e)) f
      inner (env.get_errors d false) h
      (by intro x; simp [isGlobTypeCheck])
      (by intro x c; simp [isGlobTypeCheck])
    have hwc := writeConfigEvents_all_notGlobTC env d (selectTargets env g d).1
    have hlint := lintEvents_all_notGlobTC env d
    cases hfb : (thresholdLoop f g inner (env.get_errors d false)).2 with
    | true =>
      simp only [hfb, if_true, reduceIte, List.all_append, hwc, hloop,
        Bool.and_true, Bool.true_and]
      simp [isGlobTypeCheck]
    | false =>
      simp only [hfb, Bool.false_eq_true, if_false, List.all_append, hwc,
        hloop, hlint, Bool.and_true, Bool.true_and]
      simp [isGlobTypeCheck]

theorem runLoop_all_notGlobTC (env : Env) (f : Option Int)
    (inner : List Event) (dirs : List String) {g : Option Int}
    (conv : List String) (h : truthy g = false) :
    (runLoop env f inner dirs g conv).events.all
      (fun e => !(isGlobTypeCheck e)) = true := by
  induction dirs generalizing conv with
  | nil => rfl
  | cons d rest ih =>
    have hg : (convert_directory env f g inner d).glob = g := by
      rw [convert_not_truthy env f inner inner d h]
    simp only [runLoop]
    cases hf : conv.all (fun c => !(pyStartsWith d c)) with
    | false => simpa [hf] using ih conv
    | true =>
      simp only [Bool.true_eq_false, if_true, reduceIte, List.all_append]
      rw [hg]
      simp [convert_all_notGlobTC env f inner d h, ih (conv ++ [d])]

theorem runNoneEvents_all_notGlobTC (env : Env) (f : Option Int) :
    (runNoneEvents env f).all (fun e => !(isGlobTypeCheck e)) = true := by
  unfold runNoneEvents run_aux
  have hrl := runLoop_all_notGlobTC env f []
    (gather_directories env (resolveSubdirectory env)) [] truthy_none_eq
  simp only [List.all_append, hrl, Bool.true_and]
  simp [isGlobTypeCheck]

/-! ### Absence of file-level ignores when no fixme threshold is configured -/

theorem thresholdLoop_all_notALM (g : Option Int) (inner : List Event)
    (errs : List (String × Nat))
    (hinner : inner.all (fun e => !(isAddLocalModeEvent e)) = true) :
    (thresholdLoop none g inner errs).1.all
      (fun e => !(isAddLocalModeEvent e)) = true := by
  induction errs with
  | nil => rfl
  | cons pc rest ih =>
    obtain ⟨path, count⟩ := pc
    rw [thresholdLoop]
    cases hfa : fileAction g none count with
    | fallback =>
      simp only [List.all_cons, Bool.and_eq_true]
      exact ⟨rfl, hinner⟩
    | fileIgnore => exact absurd hfa (fileAction_fixme_none_ne_fileIgnore g count)
    | inline =>
      simp only [List.all_cons, Bool.and_eq_true]
      exact ⟨rfl, ih⟩

theorem convert_all_notALM (env : Env) (g : Option Int) (inner : List Event)
    (d : String)
    (hinner : inner.all (fun e => !(isAddLocalModeEvent e)) = true) :
    (convert_directory env none g inner d).events.all
      (fun e => !(isAddLocalModeEvent e)) = true := by
  simp only [convert_directory]
  cases he : (env.find_targets d).isEmpty with
  | true => simp [he, isAddLocalModeEvent]
  | false =>
    simp only [he, Bool.false_eq_true, if_false]
    have hloop := thresholdLoop_all_notALM g inner
      (env.get_errors d (truthy g)) hinner
    have hwc : (writeConfigEvents env d
        (selectTargets env g d).1).all (fun e => !(isAddLocalModeEvent e)) = true := by
      unfold writeConfigEvents
      split <;> simp [isAddLocalModeEvent]
    have hlint : (lintEvents env d).all (fun e => !(isAddLocalModeEvent e)) = true := by
      unfold lintEvents
      cases env.lint <;> cases env.format_result <;> simp [isAddLocalModeEvent]
    cases hfb : (thresholdLoop none g inner (env.get_errors d (truthy g))).2 with
    | true =>
      simp only [hfb, if_true, reduceIte, List.all_append, hwc, hloop,
        Bool.and_true, Bool.true_and]
      simp [isAddLocalModeEvent]
    | false =>
      simp only [hfb, Bool.false_eq_true, if_false, List.all_append, hwc,
        hloop, hlint, Bool.and_true, Bool.true_and]
      simp [isAddLocalModeEvent]

theorem runLoop_all_notALM (env : Env) (inner : List Event)
    (dirs : List String)
    (hinner : inner.all (fun e => !(isAddLocalModeEvent e)) = true) :
    ∀ (g : Option Int) (conv : List String),
      (runLoop env none inner dirs g conv).events.all
        (fun e => !(isAddLocalModeEvent e)) = true := by
  induction dirs with
  | nil => intro g conv; rfl
  | cons d rest ih =>
    intro g conv
    simp only [runLoop]
    cases hf : conv.all (fun c => !(pyStartsWith d c)) with
    | false => simpa [hf] using ih g conv
    | true =>
      simp only [Bool.true_eq_false, if_true, reduceIte, List.all_append]
      simp [convert_all_notALM env g inner d hinner,
        ih (convert_directory env none g inner d).glob (conv ++ [d])]

theorem run_aux_all_notALM (env : Env) (g : Option Int) (inner : List Event)
    (hinner : inner.all (fun e => !(isAddLocalModeEvent e)) = true) :
    ((run_aux env none g inner).1).all
      (fun e => !(isAddLocalModeEvent e)) = true := by
  unfold run_aux
  have hrl := runLoop_all_notALM env inner
    (gather_directories env (resolveSubdirectory env)) hinner g []
  simp only [List.all_append, hrl, Bool.true_and]
  simp [isAddLocalModeEvent]

theorem run_fixme_none_all_notALM (env : Env) (g : Option Int) :
    (run env none g).all (fun e => !(isAddLocalModeEvent e)) = true := by
  unfold run runNoneEvents
  exact run_aux_all_notALM env g _ (run_aux_all_notALM env none [] rfl)

/-! ### Structure of a fallback, empty discovery, and loop skipping -/

/-- When the threshold loop falls back, its event trace is some per-file
prefix followed by the revert and the restarted inner run. -/
theorem thresholdLoop_fellBack_decomp (f g : Option Int) (inner : List Event)
    (errs : List (String × Nat))
    (h : (thresholdLoop f g inner errs).2 = true) :
    ∃ p, (thresholdLoop f g inner errs).1 = p ++ Event.revertAll true :: inner := by
  induction errs with
  | nil => simp [thresholdLoop] at h
  | cons pc rest ih =>
    obtain ⟨path, count⟩ := pc
    rw [thresholdLoop] at h ⊢
    cases hfa : fileAction g f count with
    | fallback =>
      exact ⟨[], rfl⟩
    | fileIgnore =>
      rw [hfa] at h
      obtain ⟨p, hp⟩ := ih h
      exact ⟨Event.addLocalMode path :: p, by simp [hp]⟩
    | inline =>
      rw [hfa] at h
      obtain ⟨p, hp⟩ := ih h
      exact ⟨Event.suppressErrors path count :: p, by simp [hp]⟩

/-- When a conversion falls back, its event trace is some prefix followed by
`revert_all(remove_untracked=True)` and then the whole restarted run. -/
theorem convert_fellBack_decomp (env : Env) (f g : Option Int)
    (inner : List Event) (d : String)
    (h : (convert_directory env f g inner d).fellBack = true) :
    ∃ p, (convert_directory env f g inner d).events =
      p ++ Event.revertAll true :: inner := by
  simp only [convert_directory] at h ⊢
  cases he : (env.find_targets d).isEmpty with
  | true => simp [he] at h
  | false =>
    simp only [he, Bool.false_eq_true, if_false] at h ⊢
    obtain ⟨p, hp⟩ :=
      thresholdLoop_fellBack_decomp f g inner (env.get_errors d (truthy g)) h
    refine ⟨writeConfigEvents env d (selectTargets env g d).1 ++
      [Event.stripTypingFields (selectTargets env g d).2,
       Event.removeNonPyreIgnores d,
       Event.typeCheck d (truthy g)] ++ p, ?_⟩
    simp [h, hp]

/-- A directory with no discoverable targets: the conversion is exactly the
warning, with no other side effect, the glob state unchanged and no
fallback. -/
theorem convert_empty (env : Env) (f g : Option Int) (inner : List Event)
    (d : String) (h : env.find_targets d = []) :
    convert_directory env f g inner d = ⟨[Event.warnNoTargets d], g, false⟩ := by
  simp only [convert_directory]
  simp [h]

/-- Once some converted directory `c` is a string prefix of `e`, the loop
never passes `e` to `convert_directory`. -/
theorem runLoop_skip_processed (env : Env) (f : Option Int)
    (inner : List Event) (dirs : List String) (e c : String)
    (hpre : pyStartsWith e c = true) :
    ∀ (g : Option Int) (conv : List String), c ∈ conv →
      e ∉ (runLoop env f inner dirs g conv).processed := by
  induction dirs with
  | nil => intro g conv hc; simp [runLoop]
  | cons d rest ih =>
    intro g conv hc
    simp only [runLoop]
    cases hf : conv.all (fun c2 => !(pyStartsWith d c2)) with
    | false => simpa [hf] using ih g conv hc
    | true =>
      simp only [Bool.true_eq_false, if_true, reduceIte]
      intro hmem
      rcases List.mem_cons.mp hmem with he | he
      · have hd := List.all_eq_true.mp hf c hc
        rw [he] at hpre
        simp [hpre] at hd
      · exact ih (convert_directory env f g inner d).glob (conv ++ [d])
          (List.mem_append_left [d] hc) he

/-! ### Deduplication and the explicit-mode loop -/

theorem mem_dedupGo {a : String} :
    ∀ (l seen : List String), a ∈ dedupGo l seen → a ∈ l := by
  intro l
  induction l with
  | nil => intro seen h; simp [dedupGo] at h
  | cons t rest ih =>
    intro seen h
    rw [dedupGo] at h
    by_cases hc : seen.contains t = true
    · rw [if_pos hc] at h
      exact List.mem_cons_of_mem t (ih seen h)
    · rw [if_neg hc] at h
      rcases List.mem_cons.mp h with he | he
      · exact he ▸ List.mem_cons_self t rest
      · exact List.mem_cons_of_mem t (ih (t :: seen) he)

theorem dedupGo_not_mem_seen {a : String} :
    ∀ (l seen : List String), a ∈ dedupGo l seen → seen.contains a = false := by
  intro l
  induction l with
  | nil => intro seen h; simp [dedupGo] at h
  | cons t rest ih =>
    intro seen h
    rw [dedupGo] at h
    by_cases hc : seen.contains t = true
    · rw [if_pos hc] at h
      exact ih seen h
    · rw [if_neg hc] at h
      rcases List.mem_cons.mp h with he | he
      · subst he
        exact Bool.eq_false_iff.mpr hc
      · have h2 := ih (t :: seen) he
        simp only [List.contains_cons, Bool.or_eq_false_iff] at h2
        exact h2.2

theorem dedupGo_nodup : ∀ (l seen : List String), (dedupGo l seen).Nodup := by
  intro l
  induction l with
  | nil => intro seen; simp [dedupGo]
  | cons t rest ih =>
    intro seen
    rw [dedupGo]
    by_cases hc : seen.contains t = true
    · rw [if_pos hc]
      exact ih seen
    · rw [if_neg hc]
      refine List.nodup_cons.mpr ⟨fun hmem => ?_, ih (t :: seen)⟩
      have := dedupGo_not_mem_seen rest (t :: seen) hmem
      simp at this

theorem deduplicateTargets_nodup (l : List String) :
    (deduplicateTargets l).Nodup :=
  dedupGo_nodup l []

/-- Closed form of the explicit-mode accumulation loop: one `//path:name`
string per discovered pair, one `path/TARGETS` build file per discovered
path, in discovery order. -/
theorem explicitLoop_eq (l : List (String × List String)) :
    explicitLoop l =
      (l.flatMap (fun pn => pn.2.map (fun n => "//" ++ pn.1 ++ ":" ++ n)),
       l.map (fun pn => pn.1 ++ "/TARGETS")) := by
  induction l with
  | nil => rfl
  | cons pn rest ih =>
    obtain ⟨path, names⟩ := pn
    simp [explicitLoop, ih]

/-! ### The sort used by `_gather_directories` is a sort -/

theorem charListLt_asymm : ∀ a b : List Char,
    charListLt a b = true → charListLt b a = false := by
  intro a
  induction a with
  | nil =>
    intro b h
    cases b <;> rfl
  | cons x xs ih =>
    intro b h
    cases b with
    | nil => simp [charListLt] at h
    | cons y ys =>
      rw [charListLt] at h ⊢
      by_cases hxy : x = y
      · subst hxy
        simp only [if_pos rfl] at h ⊢
        exact ih ys h
      · have hyx : y ≠ x := fun he => hxy he.symm
        have h' : x < y := by simpa [hxy] using h
        simp [hyx, lt_asymm h']

theorem strLt_asymm (a b : String) (h : strLt a b = true) : strLt b a = false :=
  charListLt_asymm a.data b.data h

theorem listStrLt_asymm : ∀ a b : List String,
    listStrLt a b = true → listStrLt b a = false := by
  intro a
  induction a with
  | nil =>
    intro b h
    cases b <;> rfl
  | cons x xs ih =>
    intro b h
    cases b with
    | nil => simp [listStrLt] at h
    | cons y ys =>
      rw [listStrLt] at h ⊢
      by_cases hxy : x = y
      · subst hxy
        simp only [if_pos rfl] at h ⊢
        exact ih ys h
      · have hyx : y ≠ x := fun he => hxy he.symm
        have h' : strLt x y = true := by simpa [hxy] using h
        simp [hyx, strLt_asymm x y h']

theorem keyLt_asymm (a b : List String) (h : keyLt a b = true) :
    keyLt b a = false := by
  unfold keyLt at h ⊢
  by_cases h1 : a.length < b.length
  · simp only [if_pos h1] at h
    have h2 : ¬ b.length < a.length := Nat.lt_asymm h1
    simp [h2, h1]
  · simp only [if_neg h1] at h
    by_cases h2 : b.length < a.length
    · simp [h2] at h
    · simp only [if_neg h2] at h
      simp [h2, h1, listStrLt_asymm a b h]

theorem keyLe_total (x y : List String) (h : keyLe x y = false) :
    keyLe y x = true := by
  unfold keyLe at h ⊢
  have hlt : keyLt y x = true := by
    cases hk : keyLt y x with
    | false => rw [hk] at h; simp at h
    | true => rfl
  simp [keyLt_asymm y x hlt]

theorem pairwiseKeyLe_insertKey (x : List String) :
    ∀ l : List (List String), pairwiseKeyLe l = true →
      pairwiseKeyLe (insertKey x l) = true := by
  intro l
  induction l with
  | nil => intro h; rfl
  | cons y ys ih =>
    intro h
    rw [insertKey]
    cases hle : keyLe x y with
    | true =>
      simp only [if_pos rfl, reduceIte]
      rw [pairwiseKeyLe]
      simp [hle, h]
    | false =>
      simp only [Bool.false_eq_true, if_false, reduceIte]
      have hyx : keyLe y x = true := keyLe_total x y hle
      cases ys with
      | nil =>
        rw [insertKey]
        simp [pairwiseKeyLe, hyx]
      | cons z zs =>
        have hyz : keyLe y z = true := by
          rw [pairwiseKeyLe] at h
          exact (Bool.and_eq_true_iff.mp h).1
        have hzs : pairwiseKeyLe (z :: zs) = true := by
          rw [pairwiseKeyLe] at h
          exact (Bool.and_eq_true_iff.mp h).2
        have hins := ih hzs
        cases hxz : keyLe x z with
        | true =>
          rw [insertKey] at hins ⊢
          simp only [hxz, reduceIte] at hins ⊢
          rw [pairwiseKeyLe]
          simp [hyx, hins]
        | false =>
          rw [insertKey] at hins ⊢
          simp only [hxz, Bool.false_eq_true, reduceIte] at hins ⊢
          rw [pairwiseKeyLe]
          simp [hyz, hins]

theorem pairwiseKeyLe_sortByKey (l : List (List String)) :
    pairwiseKeyLe (sortByKey l) = true := by
  induction l with
  | nil => rfl
  | cons x xs ih => exact pairwiseKeyLe_insertKey x (sortByKey xs) ih

theorem run_aux_count_revert_zero (env : Env) (f : Option Int)
    (inner : List Event) {g : Option Int} (h : truthy g = false) :
    ((run_aux env f g inner).1).count (Event.revertAll true) = 0 := by
  unfold run_aux
  simp [List.count_append,
    runLoop_count_revert_zero env f inner
      (gather_directories env (resolveSubdirectory env)) [] h]

theorem run_aux_all_notGlobTC (env : Env) (f : Option Int)
    (inner : List Event) {g : Option Int} (h : truthy g = false) :
    ((run_aux env f g inner).1).all (fun e => !(isGlobTypeCheck e)) = true := by
  unfold run_aux
  have hrl := runLoop_all_notGlobTC env f inner
    (gather_directories env (resolveSubdirectory env)) [] h
  simp only [List.all_append, hrl, Bool.true_and]
  simp [isGlobTypeCheck]

/-! ## Claims -/

/-- C3: the threshold comparisons are strictly greater-than.  A file whose
error count equals the configured fixme threshold is suppressed inline (not
file-ignored); a count of fixme threshold + 1 is file-ignored.  The glob
fallback fires exactly for counts strictly greater than the glob threshold,
so a count equal to it never triggers fallback. -/
theorem c3_strict_threshold_boundaries (f g : Nat) (fx : Option Int)
    (p : String) (inner : List Event) (hf : 0 < f) (hg : 0 < g) :
    fileAction none (some (f : Int)) f = FileAction.inline ∧
    fileAction none (some (f : Int)) (f + 1) = FileAction.fileIgnore ∧
    (∀ c : Nat,
      fileAction (some (g : Int)) fx c = FileAction.fallback ↔ g < c) ∧
    thresholdLoop (some (f : Int)) none inner [(p, f)] =
      ([Event.suppressErrors p f], false) ∧
    thresholdLoop (some (f : Int)) none inner [(p, f + 1)] =
      ([Event.addLocalMode p], false) := by
  have hf0 : (((f : Int) != 0) = true) := by simp; omega
  have hg0 : (((g : Int) != 0) = true) := by simp; omega
  have h1 : fileAction none (some (f : Int)) f = FileAction.inline := by
    unfold fileAction
    rw [exceeds_none_eq]
    simp [exceeds]
  have h2 : fileAction none (some (f : Int)) (f + 1) = FileAction.fileIgnore := by
    unfold fileAction
    rw [exceeds_none_eq]
    simp only [exceeds, hf0, Bool.true_and, Bool.false_eq_true, if_false]
    have hlt : ((f : Int) < (((f + 1 : Nat)) : Int)) := by push_cast; omega
    simp [decide_eq_true hlt]
  refine ⟨h1, h2, ?_, ?_, ?_⟩
  · intro c
    unfold fileAction
    simp only [exceeds, hg0, Bool.true_and]
    by_cases hc : g < c
    · have hd : (decide ((c : Int) > (g : Int))) = true := by simp; omega
      simp [hd, hc]
    · have hd : (decide ((c : Int) > (g : Int))) = false := by simp; omega
      simp only [hd, Bool.false_eq_true, if_false]
      constructor
      · intro hcontra
        split at hcontra <;> simp at hcontra
      · intro hcontra
        exact absurd hcontra hc
  · rw [thresholdLoop, h1]
    rfl
  · rw [thresholdLoop, h2]
    rfl

/-- C3 witness: at fixme threshold 2 and glob threshold 3, a count of 2 is
suppressed inline, a count of 3 is file-ignored, and the fallback fires for a
count of 4 but not 3. -/
theorem c3_witness :
    fileAction none (some 2) 2 = FileAction.inline ∧
    fileAction none (some 2) 3 = FileAction.fileIgnore ∧
    thresholdLoop (some 2) none [] [("x", 2)] =
      ([Event.suppressErrors "x" 2], false) := by
  have h := c3_strict_threshold_boundaries 2 3 none "x" []
    (by decide) (by decide)
  exact ⟨h.1, h.2.1, h.2.2.2.1⟩

/-- C5: during gap filling an enumerated filesystem subdirectory is added to
the missing accumulator iff its path string is not a string prefix of any
previously known configuration-directory path.  The coveredness test is a raw
string-prefix comparison: `foo` is treated as covered by a configuration at
`foo2/bar`, although `foo` is not a path-component prefix of it. -/
theorem c5_string_prefix_coverage (env : Env) (known : List String)
    (p d : String) :
    (d ∈ stepAdditions env known p ↔
      d ∈ env.find_directories p ∧ ∀ c ∈ known, ¬ (d.data <+: c.data)) ∧
    pyStartsWith "foo2/bar" "foo" = true ∧
    pySplitSlash "foo2/bar" = ["foo2", "bar"] := by
  refine ⟨?_, by decide, by decide⟩
  unfold stepAdditions
  rw [List.mem_filter]
  simp [pyStartsWith, List.all_eq_true, Bool.not_eq_true,
    ← List.isPrefixOf_iff_prefix]

/-- C5 witness: with one known configuration directory `zed`, the enumerated
subdirectory `foo` is added to the missing accumulator. -/
theorem c5_witness : "foo" ∈ stepAdditions env5 ["zed"] "" :=
  (c5_string_prefix_coverage env5 ["zed"] "" "foo").1.mpr
    ⟨by decide, by decide⟩

/-- C6: mode selection.  In glob mode the new target list is exactly the
single wildcard `//<directory>/...` and the build files handed to the
legacy-field stripper are every `TARGETS` file found under the directory by
filesystem glob; in explicit mode there is exactly one `//<path>:<name>`
string per discovered pair and the stripped build files are the `TARGETS`
files of the discovered paths.  The chosen build files are exactly what the
conversion passes to the stripper. -/
theorem c6_mode_selection (env : Env) (fixme glob : Option Int)
    (inner : List Event) (dir : String) (ht : env.find_targets dir ≠ []) :
    (truthy glob = true →
      selectTargets env glob dir =
        (["//" ++ dir ++ "/..."],
         (env.fs_list dir).map (fun path => dir ++ "/" ++ path))) ∧
    (truthy glob = false →
      selectTargets env glob dir =
        ((env.find_targets dir).flatMap
           (fun pn => pn.2.map (fun n => "//" ++ pn.1 ++ ":" ++ n)),
         (env.find_targets dir).map (fun pn => pn.1 ++ "/TARGETS"))) ∧
    Event.stripTypingFields (selectTargets env glob dir).2 ∈
      (convert_directory env fixme glob inner dir).events := by
  have he : (env.find_targets dir).isEmpty = false := by
    cases hh : env.find_targets dir with
    | nil => exact absurd hh ht
    | cons a l => rfl
  refine ⟨fun h => ?_, fun h => ?_, ?_⟩
  · unfold selectTargets
    rw [h]
    rfl
  · unfold selectTargets
    rw [h]
    simp only [Bool.false_eq_true, if_false]
    exact explicitLoop_eq _
  · simp only [convert_directory, he, Bool.false_eq_true, if_false]
    simp [List.mem_append]

/-- C6 witness: in `env1` glob mode selects the wildcard target and all
`TARGETS` files under the directory; explicit mode selects `//a:x`. -/
theorem c6_witness :
    selectTargets env1 (some 1) "a" = (["//a/..."], ["a/TARGETS"]) ∧
    selectTargets env1 none "a" = (["//a:x"], ["a/TARGETS"]) := by
  have h1 := c6_mode_selection env1 none (some 1) [] "a" (by decide)
  have h2 := c6_mode_selection env1 none none [] "a" (by decide)
  exact ⟨by rw [h1.1 (by decide)]; decide, by rw [h2.2.1 (by decide)]; decide⟩

/-- C7: the write step.  If a configuration already exists at the directory
it is loaded, the new targets are merged into its target list, the merged
list is deduplicated (no duplicate remains) and written back with nothing
registered with version control; otherwise a fresh document with just the new
target list is written and the new file path is registered with the
version-control collaborator.  The conversion's trace starts with exactly
these write-step events. -/
theorem c7_write_config (env : Env) (fixme glob : Option Int)
    (inner : List Event) (dir : String) (ht : env.find_targets dir ≠ []) :
    (env.config_exists dir = true →
      writeConfigEvents env dir (selectTargets env glob dir).1 =
        [Event.mergeConfig dir (deduplicateTargets
          (addTargets (env.existing_config_targets dir)
            (selectTargets env glob dir).1))] ∧
      (deduplicateTargets (addTargets (env.existing_config_targets dir)
        (selectTargets env glob dir).1)).Nodup ∧
      ∀ ps, Event.addPaths ps ∉
        writeConfigEvents env dir (selectTargets env glob dir).1) ∧
    (env.config_exists dir = false →
      writeConfigEvents env dir (selectTargets env glob dir).1 =
        [Event.writeNewConfig dir (selectTargets env glob dir).1,
         Event.addPaths [dir ++ "/.pyre_configuration.local"]]) ∧
    ∃ rest, (convert_directory env fixme glob inner dir).events =
      writeConfigEvents env dir (selectTargets env glob dir).1 ++ rest := by
  have he : (env.find_targets dir).isEmpty = false := by
    cases hh : env.find_targets dir with
    | nil => exact absurd hh ht
    | cons a l => rfl
  refine ⟨fun h => ⟨?_, deduplicateTargets_nodup _, ?_⟩, fun h => ?_, ?_⟩
  · unfold writeConfigEvents
    simp [h]
  · intro ps
    unfold writeConfigEvents
    simp [h]
  · unfold writeConfigEvents
    simp [h]
  · refine ⟨[Event.stripTypingFields (selectTargets env glob dir).2,
      Event.removeNonPyreIgnores dir,
      Event.typeCheck dir (truthy glob)] ++
      (thresholdLoop fixme glob inner
        (env.get_errors dir (truthy glob))).1 ++
      (if (thresholdLoop fixme glob inner
        (env.get_errors dir (truthy glob))).2 then []
       else lintEvents env dir), ?_⟩
    simp only [convert_directory, he, Bool.false_eq_true, if_false]
    simp [List.append_assoc]

/-- C7 witness: in `env1`, directory `a` has an existing configuration and
its conversion merges (registering nothing); in `envW` the root has none and
a fresh configuration is written and registered. -/
theorem c7_witness :
    writeConfigEvents env1 "a" (selectTargets env1 none "a").1 =
      [Event.mergeConfig "a" ["//a:x"]] ∧
    writeConfigEvents envW "root" (selectTargets envW none "root").1 =
      [Event.writeNewConfig "root" ["//a:x", "//b/c:y"],
       Event.addPaths ["root/.pyre_configuration.local"]] := by
  have h1 := c7_write_config env1 none none [] "a" (by decide)
  have h2 := c7_write_config envW none none [] "root" (by decide)
  constructor
  · rw [(h1.1 (by decide)).1]
    decide
  · rw [h2.2.1 (by decide)]
    decide

/-- C8: a directory whose target discovery returns no targets is skipped with
a warning and no other side effect: the conversion's whole trace is the
warning event — no configuration write or merge, no stripping, no type check,
no suppression — and the run state is unchanged (non-fatal). -/
theorem c8_no_targets_skip (env : Env) (fixme glob : Option Int)
    (inner : List Event) (dir : String) (h : env.find_targets dir = []) :
    convert_directory env fixme glob inner dir =
      ⟨[Event.warnNoTargets dir], glob, false⟩ :=
  convert_empty env fixme glob inner dir h

/-- C8 witness: in `env1` the directory `zzz` has no targets and its
conversion is exactly the warning. -/
theorem c8_witness :
    convert_directory env1 none (some 1) [] "zzz" =
      ⟨[Event.warnNoTargets "zzz"], some 1, false⟩ :=
  c8_no_targets_skip env1 none (some 1) [] "zzz" (by decide)

/-- C1 counterexample: in `env1` with glob threshold 1, converting `a` falls
back (revert, glob disabled, full restarted run), yet the outer loop still
processes directory `b` of the same aborted run afterwards — it even submits
a second changeset — contradicting "no directory of the aborted run is
processed further after the fallback fires". -/
theorem c1_counterexample :
    (convert_directory env1 none (some 1)
        (runNoneEvents env1 none) "a").fellBack = true ∧
    gather_directories env1 (resolveSubdirectory env1) = ["a", "b"] ∧
    (runLoop env1 none (runNoneEvents env1 none)
        ["a", "b"] (some 1) []).processed = ["a", "b"] ∧
    (run env1 none (some 1)).count
      (Event.submitChanges true false
        "Convert type check targets in root to use configuration"
        "SUMMARY") = 2 := by
  refine ⟨by decide, by decide, by decide, by decide⟩

/-- C1 (amended): when a file's error count exceeds the configured glob
threshold during a directory's threshold evaluation, the tool reverts every
uncommitted change (including untracked files), permanently disables glob
mode (the conversion returns with `self._glob = None`), and immediately runs
the whole top-level run again from the beginning; the rest of that
directory's evaluation is aborted, but after the restarted run completes the
outer loop resumes and the remaining directories of the original run are
still processed (now in explicit mode). -/
theorem c1_fallback_reverts_restarts_and_loop_resumes (env : Env)
    (fixme glob : Option Int) (inner : List Event) (d : String)
    (rest conv : List String)
    (hfb : (convert_directory env fixme glob inner d).fellBack = true)
    (hfilter : conv.all (fun c => !(pyStartsWith d c)) = true) :
    (convert_directory env fixme glob inner d).glob = none ∧
    (∃ p, (convert_directory env fixme glob inner d).events =
       p ++ Event.revertAll true :: inner) ∧
    runLoop env fixme inner (d :: rest) glob conv =
      ⟨(convert_directory env fixme glob inner d).events ++
         (runLoop env fixme inner rest none (conv ++ [d])).events,
       (runLoop env fixme inner rest none (conv ++ [d])).glob,
       (runLoop env fixme inner rest none (conv ++ [d])).converted,
       d :: (runLoop env fixme inner rest none (conv ++ [d])).processed⟩ := by
  have hg := convert_glob_of_fellBack env fixme glob inner d hfb
  refine ⟨hg, convert_fellBack_decomp env fixme glob inner d hfb, ?_⟩
  simp only [runLoop, hfilter, if_true, reduceIte]
  rw [hg]

/-- C1 witness: the amended statement instantiated in `env1`: converting `a`
under glob threshold 1 disables glob mode and the loop resumes with `b`. -/
theorem c1_witness :
    (convert_directory env1 none (some 1)
        (runNoneEvents env1 none) "a").glob = none ∧
    runLoop env1 none (runNoneEvents env1 none) ["a", "b"] (some 1) [] =
      ⟨(convert_directory env1 none (some 1)
          (runNoneEvents env1 none) "a").events ++
         (runLoop env1 none (runNoneEvents env1 none) ["b"] none ["a"]).events,
       (runLoop env1 none (runNoneEvents env1 none) ["b"] none ["a"]).glob,
       (runLoop env1 none (runNoneEvents env1 none) ["b"] none ["a"]).converted,
       "a" :: (runLoop env1 none (runNoneEvents env1 none)
         ["b"] none ["a"]).processed⟩ := by
  have h := c1_fallback_reverts_restarts_and_loop_resumes env1 none (some 1)
    (runNoneEvents env1 none) "a" ["b"] [] (by decide) (by decide)
  exact ⟨h.1, h.2.2⟩

/-- C2: the glob-threshold fallback fires at most once per invocation: the
whole trace of a run contains at most one `revert_all`; the glob-disabled
(restarted) run contains none at all and performs no glob-mode type check —
so it can never trigger another glob fallback, whatever the error counts. -/
theorem c2_fallback_at_most_once (env : Env) (fixme glob : Option Int) :
    (run env fixme glob).count (Event.revertAll true) ≤ 1 ∧
    (runNoneEvents env fixme).count (Event.revertAll true) = 0 ∧
    (runNoneEvents env fixme).all (fun e => !(isGlobTypeCheck e)) = true := by
  refine ⟨?_, runNoneEvents_count_revert env fixme,
    runNoneEvents_all_notGlobTC env fixme⟩
  unfold run run_aux
  have hl := runLoop_count_revert_le_one env fixme (runNoneEvents env fixme)
    (gather_directories env (resolveSubdirectory env))
    (runNoneEvents_count_revert env fixme) glob []
  simp only [List.count_append]
  simpa using hl

/-- C4 counterexample: with the configuration search returning `b/c` before
`a`, the resolver's output is `["b/c", "a"]` — a depth-2 directory precedes a
depth-1 one, so the returned list is not sorted by (component count
ascending, lexical). -/
theorem c4_counterexample :
    gather_directories env4 (resolveSubdirectory env4) = ["b/c", "a"] ∧
    (pySplitSlash "b/c").length = 2 ∧
    (pySplitSlash "a").length = 1 ∧
    pairwiseKeyLe ((gather_directories env4
      (resolveSubdirectory env4)).map pySplitSlash) = false := by
  refine ⟨by decide, by decide, by decide, by decide⟩

/-- C4 (amended): when at least one configuration pre-exists, the resolver
returns the known configuration directories in discovery (`find_files`)
order followed by the gap-filled missing directories; the
(component-count ascending, lexical) sorting applies only to the internal
split copy that drives the gap-filling iteration, which is indeed sorted by
that key — the returned list itself is not sorted in general. -/
theorem c4_known_order_and_sorted_driver (env : Env) (sub : String)
    (h : knownDirectories env sub ≠ []) :
    gather_directories env sub =
      knownDirectories env sub ++ missingDirectories env sub ∧
    pairwiseKeyLe (sortedSplitDirectories env sub) = true := by
  constructor
  · unfold gather_directories missingDirectories sortedSplitDirectories
    rw [if_neg (fun hh => h (List.length_eq_zero.mp hh))]
  · exact pairwiseKeyLe_sortByKey _

/-- C4 witness: the amended statement instantiated in `env4`. -/
theorem c4_witness :
    gather_directories env4 "root" =
      knownDirectories env4 "root" ++ missingDirectories env4 "root" ∧
    pairwiseKeyLe (sortedSplitDirectories env4 "root") = true :=
  c4_known_order_and_sorted_driver env4 "root" (by decide)

/-- C9: a threshold configured as 0 behaves exactly like an absent threshold,
because both checks test truthiness: a run with glob 0 equals the run with
glob absent (so glob mode is never selected and the fallback never fires),
and a run with fixme threshold 0 equals the run with fixme absent (so no
file is ever file-level ignored). -/
theorem c9_zero_thresholds_are_absent (env : Env) (fixme glob : Option Int) :
    run env fixme (some 0) = run env fixme none ∧
    run env (some 0) glob = run env none glob ∧
    (run env (some 0) glob).all (fun e => !(isAddLocalModeEvent e)) = true ∧
    (run env fixme (some 0)).count (Event.revertAll true) = 0 ∧
    (run env fixme (some 0)).all (fun e => !(isGlobTypeCheck e)) = true := by
  have h01 : run env fixme (some 0) = run env fixme none := by
    unfold run
    exact run_aux_not_truthy env fixme (runNoneEvents env fixme)
      (runNoneEvents env fixme) (by decide)
  have h02 : run env (some 0) glob = run env none glob := by
    unfold run runNoneEvents
    rw [run_aux_fixme_zero env none [], run_aux_fixme_zero env glob]
  refine ⟨h01, h02, ?_, ?_, ?_⟩
  · rw [h02]
    exact run_fixme_none_all_notALM env glob
  · unfold run
    exact run_aux_count_revert_zero env fixme (runNoneEvents env fixme)
      (by decide)
  · unfold run
    exact run_aux_all_notGlobTC env fixme (runNoneEvents env fixme) (by decide)

/-- C10: a directory skipped because no targets were discovered is still
appended to the run's `converted` list, and any later directory whose path
string starts with the skipped directory's path string is itself skipped
without ever being passed to `convert_directory` — exactly as if the skipped
directory had been converted. -/
theorem c10_skipped_directory_still_blocks_subtree (env : Env)
    (fixme : Option Int) (inner : List Event) (glob : Option Int)
    (conv : List String) (d : String) (rest : List String)
    (hfilter : conv.all (fun c => !(pyStartsWith d c)) = true)
    (hempty : env.find_targets d = []) :
    runLoop env fixme inner (d :: rest) glob conv =
      ⟨Event.warnNoTargets d ::
         (runLoop env fixme inner rest glob (conv ++ [d])).events,
       (runLoop env fixme inner rest glob (conv ++ [d])).glob,
       (runLoop env fixme inner rest glob (conv ++ [d])).converted,
       d :: (runLoop env fixme inner rest glob (conv ++ [d])).processed⟩ ∧
    ∀ e ∈ rest, pyStartsWith e d = true →
      e ∉ (runLoop env fixme inner rest glob (conv ++ [d])).processed := by
  constructor
  · simp only [runLoop, hfilter, if_true, reduceIte]
    rw [convert_empty env fixme glob inner d hempty]
    simp
  · intro e hr hpre
    exact runLoop_skip_processed env fixme inner rest e d hpre glob
      (conv ++ [d]) (List.mem_append_right conv (List.mem_singleton.mpr rfl))

/-- C10 witness: in `env1`, `zzz` has no targets; it is recorded as converted
and the nested `zzz/sub` is never passed to `convert_directory`. -/
theorem c10_witness :
    runLoop env1 none [] ["zzz", "zzz/sub"] (some 1) [] =
      ⟨Event.warnNoTargets "zzz" ::
         (runLoop env1 none [] ["zzz/sub"] (some 1) ["zzz"]).events,
       (runLoop env1 none [] ["zzz/sub"] (some 1) ["zzz"]).glob,
       (runLoop env1 none [] ["zzz/sub"] (some 1) ["zzz"]).converted,
       "zzz" :: (runLoop env1 none [] ["zzz/sub"] (some 1) ["zzz"]).processed⟩ ∧
    "zzz/sub" ∉ (runLoop env1 none [] ["zzz/sub"] (some 1) ["zzz"]).processed := by
  have h := c10_skipped_directory_still_blocks_subtree env1 none [] (some 1)
    [] "zzz" ["zzz/sub"] (by decide) (by decide)
  exact ⟨h.1, h.2 "zzz/sub" (by decide) (by decide)⟩

end TargetsToConfiguration
